import Mathlib

/-!
Shallow embedding of the irrigation controller (filippods/irrigazione-0.9).

Modules embedded:
  * `program_state.py`  — persisted run state (`program_running`, `current_program_id`),
    its load/save round trip and the incoherence protections in `load_program_state`.
  * `zone_manager.py`   — GPIO zone control: `start_zone`, `stop_zone`, `stop_all_zones`,
    the active-zone bookkeeping dictionary and the safety relay.
  * `program_manager.py` — `check_program_conflicts`, `is_program_due_today` with its
    day-of-year / leap-year arithmetic, and the interruption/cleanup structure of
    `execute_program` and `stop_program`.

Modelling conventions:
  * Python dicts with insertion order become association lists; JSON null / missing
    keys become `Option`.
  * GPIO writes on zone pins may raise in the source (`try/except` around
    `pin.value(...)`); this is modelled by a set `failPins` of zone ids whose writes
    raise.  Safety-relay writes are modelled as non-raising.
  * `uasyncio` timers are modelled by the `(start_time, duration)` record a zone's
    dictionary entry carries; replacing the entry is the model of cancelling the old
    timer and creating a new one.
-/

namespace ProgramState

/-- In-memory run state: the module globals `program_running` and
`current_program_id` of `program_state.py`. -/
structure PState where
  running : Bool
  id : Option String
deriving Repr, DecidableEq

/-- Content of `/data/program_state.json` as `load_program_state` sees it:
the file can be absent (`OSError` path), fail JSON decoding or fail the dict check
(`ValueError` path), or parse to a dict whose two fields may each be missing/null
(`dict.get` returns `None`) or hold a boolean / a string id. -/
inductive Disk where
  | missing
  | corrupt
  | ok (running : Option Bool) (id : Option String)
deriving Repr, DecidableEq

/-- Python truthiness of the value read for `program_running`: `None` is falsy, a
boolean is itself.  Used for the `elif not loaded_running:` test. -/
def truthy : Option Bool → Bool
  | none => false
  | some b => b

/-- Result of `load_program_state`: the new in-memory state, and the state passed to
`save_program_state` when the load decided to (re-)persist, `none` otherwise. -/
structure LoadResult where
  state : PState
  saved : Option PState
deriving Repr, DecidableEq

/-- Embedding of `program_state.load_program_state` (program_state.py lines 97-179).

* Missing file (`OSError`): keep the state if `program_running` is true, otherwise
  reset to `(False, None)`; then `save_program_state()`.
* Undecodable file (`ValueError`): same protection, then `save_program_state()`.
* Parsed dict: first the running field — if the disk says not-running while memory
  says running, the in-memory belief wins and the current in-memory state is
  re-persisted (lines 128-131); otherwise the disk boolean is adopted.  Then the id
  field (lines 138-143) — a non-null disk id is always adopted; a null/missing disk
  id clears the in-memory id when the disk running field is not truthy; otherwise
  the id is left unchanged (the running-without-id anomaly is only logged). -/
def load_program_state (mem : PState) (disk : Disk) : LoadResult :=
  match disk with
  | .missing =>
      let m := if mem.running then mem else ⟨false, none⟩
      ⟨m, some m⟩
  | .corrupt =>
      let m := if mem.running then mem else ⟨false, none⟩
      ⟨m, some m⟩
  | .ok dR dI =>
      let rs : Bool × Option PState :=
        match dR with
        | none => (mem.running, none)
        | some r => if !r && mem.running then (mem.running, some mem) else (r, none)
      let id1 : Option String :=
        match dI with
        | some s => some s
        | none => if truthy dR then mem.id else none
      ⟨⟨rs.1, id1⟩, rs.2⟩

end ProgramState

namespace ZoneManager

/-- Configuration a `zone_manager` call runs under: the ids that got a GPIO pin in
`initialize_pins` (`zone_pins` keys), the cached user settings `max_zone_duration`
and `max_active_zones`, whether `safety_relay` is not `None`, and which zone pins'
GPIO writes raise. -/
structure Config where
  zonePins : List Int
  maxZoneDuration : Int
  maxActiveZones : Nat
  hasRelay : Bool
  failPins : List Int
deriving Repr, DecidableEq

/-- Value stored in the `active_zones` dict for a zone: start time and duration in
minutes.  The `task` field (the auto-off timer) is represented by this record:
replacing it models cancelling the old timer and starting a fresh one. -/
structure ZoneData where
  startTime : Nat
  duration : Int
deriving Repr, DecidableEq

/-- Mutable state of `zone_manager.py`: the `active_zones` dict (insertion-ordered
association list with unique keys), the set of zone ids whose output is currently
energized (pin written to 0, active-low), and whether the safety relay is
energized. -/
structure ZMState where
  activeZones : List (Int × ZoneData)
  pinOn : List Int
  relayOn : Bool
deriving Repr, DecidableEq

/-- `get_active_zones_count`: `len(active_zones)`. -/
def get_active_zones_count (s : ZMState) : Nat := s.activeZones.length

/-- De-energizing write `pin.value(1)` on zone `z`: the zone leaves the energized
set (all occurrences removed — a GPIO level write is idempotent). -/
def pinOff (l : List Int) (z : Int) : List Int := l.filter (fun w => !(w == z))

/-- Membership test `zone_id in active_zones`. -/
def zmem (z : Int) (l : List (Int × ZoneData)) : Bool := l.any (fun e => e.1 == z)

/-- Dict update `active_zones[zone_id] = v`: replace the value in place when the key
exists, append otherwise. -/
def updateAssoc : List (Int × ZoneData) → Int → ZoneData → List (Int × ZoneData)
  | [], k, v => [(k, v)]
  | e :: rest, k, v => if e.1 == k then (k, v) :: rest else e :: updateAssoc rest k v

/-- Dict deletion `del active_zones[zone_id]` (first occurrence). -/
def removeAssoc : List (Int × ZoneData) → Int → List (Int × ZoneData)
  | [], _ => []
  | e :: rest, k => if e.1 == k then rest else e :: removeAssoc rest k

/-- First-match lookup `active_zones[zone_id]`. -/
def lookupAssoc : List (Int × ZoneData) → Int → Option ZoneData
  | [], _ => none
  | e :: rest, k => if e.1 == k then some e.2 else lookupAssoc rest k

/-- Embedding of `zone_manager.start_zone` (zone_manager.py lines 165-257) for
arguments that passed the `int()` conversion (a conversion failure returns `False`
without touching any state, line 184).

The parameter `program_running_binding` is zone_manager's own module-level name
`program_running`, created by `from program_state import program_running` (line 11):
it is a value binding taken when the module is imported and is never reassigned in
`zone_manager.py`, so the `load_program_state()` call on line 187 — which updates
`program_state`'s globals — does not change what line 188 tests.  At boot the
imported value is the initializer `False` of program_state.py line 10.

`now` is `time.time()` at the call. -/
def start_zone (cfg : Config) (program_running_binding : Bool) (now : Nat)
    (s : ZMState) (zone_id duration : Int) : Bool × ZMState :=
  if program_running_binding then (false, s)
  else if !(cfg.zonePins.contains zone_id) then (false, s)
  else if duration ≤ 0 || duration > cfg.maxZoneDuration then (false, s)
  else if cfg.maxActiveZones ≤ s.activeZones.length && !(zmem zone_id s.activeZones) then
    (false, s)
  else
    -- activate the safety relay when no zone is active yet
    let s1 := if cfg.hasRelay && s.activeZones.isEmpty then { s with relayOn := true } else s
    if cfg.failPins.contains zone_id then
      -- pin write raised: restore the relay if it was just energized, return False
      let s2 := if cfg.hasRelay && s.activeZones.isEmpty then { s1 with relayOn := false } else s1
      (false, s2)
    else
      let s2 := { s1 with pinOn := s1.pinOn.insert zone_id }
      let s3 := { s2 with activeZones := updateAssoc s2.activeZones zone_id ⟨now, duration⟩ }
      (true, s3)

/-- Embedding of `zone_manager.stop_zone` (zone_manager.py lines 318-382) after the
`int()` conversion.  `was_last_active` is computed before the pin write; a raising
pin write returns `False` with no state change; the bookkeeping entry is removed
only after a successful write; the relay is de-energized when the stopped zone was
the last active one (relay writes modelled as non-raising). -/
def stop_zone (cfg : Config) (s : ZMState) (zone_id : Int) : Bool × ZMState :=
  if !(cfg.zonePins.contains zone_id) then (false, s)
  else
    let wasLast := zmem zone_id s.activeZones && s.activeZones.length == 1
    if cfg.failPins.contains zone_id then (false, s)
    else
      let s1 := { s with pinOn := pinOff s.pinOn zone_id }
      let s2 :=
        if zmem zone_id s1.activeZones then
          { s1 with activeZones := removeAssoc s1.activeZones zone_id }
        else s1
      if cfg.hasRelay && wasLast && s2.activeZones.isEmpty then
        (true, { s2 with relayOn := false })
      else (true, s2)

/-- Phase 1 of `stop_all_zones`: `for zone_id in zone_ids: if not stop_zone(...):
success = False` (zone_manager.py lines 403-405). -/
def stop_zones_list (cfg : Config) : ZMState → List Int → Bool × ZMState
  | s, [] => (true, s)
  | s, z :: rest =>
      let r := stop_zone cfg s z
      let rec' := stop_zones_list cfg r.2 rest
      (r.1 && rec'.1, rec'.2)

/-- Phase 2 of `stop_all_zones` (zone_manager.py lines 412-433): for each zone id
still in `active_zones`, directly write its pin off when it is configured (a raising
write is caught, flags failure and skips the `del`), then delete the bookkeeping
entry. -/
def force_stop_list (cfg : Config) : ZMState → List Int → Bool × ZMState
  | s, [] => (true, s)
  | s, z :: rest =>
      if cfg.zonePins.contains z && cfg.failPins.contains z then
        let rec' := force_stop_list cfg s rest
        (false, rec'.2)
      else
        let s1 := if cfg.zonePins.contains z then { s with pinOn := pinOff s.pinOn z } else s
        let s2 :=
          if zmem z s1.activeZones then
            { s1 with activeZones := removeAssoc s1.activeZones z }
          else s1
        force_stop_list cfg s2 rest

/-- Embedding of `zone_manager.stop_all_zones` (zone_manager.py lines 384-447).
Empty `active_zones` returns `True` immediately with no effect (lines 393-395);
otherwise phase 1 stops each active zone via `stop_zone`, phase 2 force-stops the
zones still recorded active, the safety relay is always written off when present,
and `active_zones.clear()` runs last. -/
def stop_all_zones (cfg : Config) (s : ZMState) : Bool × ZMState :=
  if s.activeZones.isEmpty then (true, s)
  else
    let ids := s.activeZones.map Prod.fst
    let p1 := stop_zones_list cfg s ids
    let p2 :=
      if p1.2.activeZones.isEmpty then (true, p1.2)
      else force_stop_list cfg p1.2 (p1.2.activeZones.map Prod.fst)
    let s3 := if cfg.hasRelay then { p2.2 with relayOn := false } else p2.2
    (p1.1 && p2.1, { s3 with activeZones := [] })

/-- Composite for manual zone start as the claim describes it: the
`load_program_state()` of zone_manager.py line 187 run against the persisted disk
state, followed by the `start_zone` body.  The loaded state is returned alongside so
that what "RunState shows" at the moment of the call can be stated; the branch on
line 188 reads the import-time binding, not the loaded state. -/
def start_zone_after_load (mem : ProgramState.PState) (disk : ProgramState.Disk)
    (program_running_binding : Bool) (cfg : Config) (now : Nat) (s : ZMState)
    (zone_id duration : Int) : ProgramState.PState × (Bool × ZMState) :=
  ((ProgramState.load_program_state mem disk).state,
   start_zone cfg program_running_binding now s zone_id duration)

end ZoneManager

namespace ProgramManager

/-- Program fields consulted by `check_program_conflicts`: month names, activation
time string and recurrence (`dict.get` with defaults `[]` and `''`; `recurrence` is
carried to make explicit that the function never reads it). -/
structure ConfProgram where
  months : List String
  activation_time : String
  recurrence : String
deriving Repr, DecidableEq

/-- Nonempty intersection test of the two month sets:
`program_months.intersection(existing_months)` is truthy. -/
def monthsIntersect (a b : List String) : Bool := a.any (fun m => b.contains m)

/-- Embedding of `program_manager.check_program_conflicts` (program_manager.py
lines 152-201), boolean component of the returned pair.  The candidate's month set
must be nonempty and its activation time a nonempty string, or the function returns
no-conflict before scanning; in the scan a program is skipped when `exclude_id` is
truthy (a nonempty string after `str()` conversion of a non-`None` argument) and
equals the entry's id. -/
def check_program_conflicts (program : ConfProgram)
    (programs : List (String × ConfProgram)) (exclude_id : Option String) : Bool :=
  if program.months.isEmpty then false
  else if program.activation_time == "" then false
  else
    programs.any (fun pr =>
      if (match exclude_id with
          | some e => !(e == "") && pr.1 == e
          | none => false) then false
      else monthsIntersect program.months pr.2.months
            && program.activation_time == pr.2.activation_time)

/-- Conflict predicate as the specification words it: some program in the
collection, other than the one identified by `exclude_id`, has a months set
intersecting the candidate's and an activation-time string exactly equal to the
candidate's. -/
def conflict_per_spec (program : ConfProgram)
    (programs : List (String × ConfProgram)) (exclude_id : Option String) : Bool :=
  programs.any (fun pr =>
    (match exclude_id with
     | some e => !(pr.1 == e)
     | none => true)
    && monthsIntersect program.months pr.2.months
    && program.activation_time == pr.2.activation_time)

/-- Embedding of `program_manager._is_leap_year` (lines 336-346). -/
def is_leap_year (year : Nat) : Bool :=
  year % 4 == 0 && (year % 100 != 0 || year % 400 == 0)

/-- The `days_in_month` table of `_day_of_year` (line 324), with February patched
to 29 in leap years. -/
def days_in_month (year : Nat) : List Nat :=
  [0, 31, if is_leap_year year then 29 else 28, 31, 30, 31, 30, 31, 31, 30, 31, 30, 31]

/-- Embedding of `program_manager._day_of_year` (lines 312-334):
`day + sum(days_in_month[i] for i in range(1, month))`.  Matches the source for
`month ≤ 13`; for larger months the source raises `IndexError` (the caller's
`except` then treats the date as never-run). -/
def day_of_year (year month day : Nat) : Nat :=
  day + (((List.range month).drop 1).map (fun i => (days_in_month year).getD i 0)).sum

/-- A calendar date as parsed from a `YYYY-MM-DD` string. -/
structure Date where
  year : Nat
  month : Nat
  day : Nat
deriving Repr, DecidableEq

/-- The `days_since_last_run` computation of `is_program_due_today` (lines
399-407): same-year difference of day-of-year values, otherwise the days remaining
in the last-run year (365 or 366 by leap year) plus the days elapsed in the current
year. -/
def days_since_last_run (today last : Date) : Int :=
  if last.year == today.year then
    (day_of_year today.year today.month today.day : Int)
      - (day_of_year last.year last.month last.day : Int)
  else
    ((if is_leap_year last.year then 366 else 365)
      - (day_of_year last.year last.month last.day : Int))
      + (day_of_year today.year today.month today.day : Int)

/-- Program fields consulted by `is_program_due_today`: the parsed last-run date
(`none` models a missing `last_run_date` key, a string that does not split into
three `int()`-parseable parts, or any other exception in the parse — all of which
leave the never-run default `-1`), the `recurrence` value (`none` models a missing
key, defaulted to `'giornaliero'`), and `interval_days` (defaulted to 1). -/
structure DueProgram where
  lastRun : Option Date
  recurrence : Option String
  intervalDays : Option Int
deriving Repr, DecidableEq

/-- Embedding of `program_manager.is_program_due_today` (lines 348-429) as a
function of today's date and the consulted program fields.  A never-run program is
due; otherwise the recurrence selects the threshold on `days_since_last_run`:
`giornaliero` ⇒ ≥ 1, `giorni_alterni` ⇒ ≥ 2, `personalizzata` ⇒ ≥ `interval_days`
clamped below by 1, any other value ⇒ not due. -/
def is_program_due_today (today : Date) (p : DueProgram) : Bool :=
  match p.lastRun with
  | none => true
  | some last =>
      let days := days_since_last_run today last
      match p.recurrence.getD "giornaliero" with
      | "giornaliero" => decide (1 ≤ days)
      | "giorni_alterni" => decide (2 ≤ days)
      | "personalizzata" =>
          let interval := p.intervalDays.getD 1
          let interval := if interval ≤ 0 then 1 else interval
          decide (interval ≤ days)
      | _ => false

/-- A step of a program as `execute_program` consumes it: a non-dict entry, a dict
without `zone_id`, or a proper step with zone id and duration in minutes. -/
inductive PStep where
  | malformed
  | missingZone (duration : Int)
  | step (zoneId : Int) (duration : Int)
deriving Repr, DecidableEq

/-- A program as `execute_program` consumes it. -/
structure Program where
  id : String
  steps : List PStep
deriving Repr, DecidableEq

/-- Environment of one `execute_program` run.  `obs k` is the value of
program_manager's own global `program_running` that the k-th interruption poll (a
`load_program_state()` followed by the `if not program_running` test, or the
re-read inside a wait/delay loop) observes.  That global is program_manager's
from-import copy (line 10), untouched by `load_program_state()` itself; it changes
only through assignments in program_manager — a concurrent `stop_program` /
`reset_program_state` sets it false, a concurrently started `execute_program` sets
it true again — so a free oracle over-approximates its evolution (the system model
below realizes it).  `startOk i` / `stopOk i` tell whether the `start_zone` /
`stop_zone` call of step index `i` succeeded (the `stop_zone` result is only
logged, line 582-583, and influences nothing modelled).  `activationDelay` is the
`activation_delay` setting in seconds. -/
structure ExecEnv where
  obs : Nat → Bool
  startOk : Nat → Bool
  stopOk : Nat → Bool
  activationDelay : Nat
deriving Inhabited

/-- One wait or delay loop of `execute_program` (lines 562-575 and 596-606): the
remaining seconds are consumed in chunks of `min 10 remaining`, so the loop runs
`⌈remaining/10⌉` iterations, each ending with an interruption poll; it exits early
with `program_running = false` as soon as a poll observes false.  Returns the next
poll index and the `program_running` value at exit (entry value is true). -/
def pollN (obs : Nat → Bool) : Nat → Nat → Nat × Bool
  | k, 0 => (k, true)
  | k, n + 1 => if obs k then pollN obs (k + 1) n else (k + 1, false)

/-- Number of 10-second chunks, `⌈secs/10⌉`. -/
def chunks (secs : Nat) : Nat := (secs + 9) / 10

/-- Result of the step loop of `execute_program`: the `program_running` value after
the loop, the next poll index, whether a pre-step or wait-loop poll observed false
(`swFalse`), and whether the `for` loop ran to completion without a `break`
(`completed`). -/
structure LoopRes where
  running : Bool
  k : Nat
  swFalse : Bool
  completed : Bool
deriving Repr, DecidableEq

/-- The `for i, step in enumerate(steps)` loop of `execute_program` (lines
529-606).  Each iteration: an interruption poll (lines 531-535, breaks on false);
malformed steps and steps without `zone_id` are skipped; a failed `start_zone` is
skipped (`continue`); a started zone waits through `⌈duration·60/10⌉` polls
(breaking out of the step loop when one observes false, lines 573-579); then
`stop_zone`; then, between steps, an optional activation delay with its own polls —
whose loop a false observation only exits locally (lines 604-606), the step loop
itself continuing to the next iteration. -/
def execSteps (env : ExecEnv) : List PStep → Nat → Nat → LoopRes
  | [], _, k => ⟨true, k, false, true⟩
  | st :: rest, i, k =>
      if !(env.obs k) then ⟨false, k + 1, true, false⟩
      else
        let k1 := k + 1
        match st with
        | .malformed => execSteps env rest (i + 1) k1
        | .missingZone _ => execSteps env rest (i + 1) k1
        | .step _ d =>
            if !(env.startOk i) then execSteps env rest (i + 1) k1
            else
              let w := pollN env.obs k1 (chunks ((d * 60).toNat))
              if !w.2 then ⟨false, w.1, true, false⟩
              else
                if env.activationDelay ≠ 0 && !(rest.isEmpty) then
                  let dl := pollN env.obs w.1 (chunks env.activationDelay)
                  let r := execSteps env rest (i + 1) dl.1
                  ⟨r.running, r.k, r.swFalse, r.completed⟩
                else
                  let r := execSteps env rest (i + 1) w.1
                  ⟨r.running, r.k, r.swFalse, r.completed⟩

/-- Result of `execute_program`: whether `update_last_run_date` was reached
(`updated`) and the loop bookkeeping. -/
structure ExecRes where
  updated : Bool
  loop : LoopRes
deriving Repr, DecidableEq

/-- Embedding of `execute_program` from FASE 1 on (program_manager.py lines
480-632), entered after its entry guards passed, abstracted to the
`update_last_run_date` decision: FASE 3 runs the step loop; FASE 4 calls
`update_last_run_date(program_id)` exactly when `program_running` — program
manager's own global, set true in FASE 1 — is still true after the loop (lines
611-614).  The persisted-state timeline of FASE 1, FASE 2 and the `finally` block
is modelled faithfully in the system model below (`execute_program_system`); this
abstraction carries only what the last-run-date claim consumes. -/
def execute_program (env : ExecEnv) (prog : Program) : ExecRes :=
  let r := execSteps env prog.steps 0 0
  { updated := r.running
    loop := r }

/-- Combined state of the three modules, tracking the from-import binding split:
`ps` holds program_state's own globals (`program_running`, `current_program_id`),
`disk` the parsed content of `/data/program_state.json` (only ever written by
`save_program_state`, which writes `ps` verbatim), and `pmRunning` / `pmId`
program_manager's module globals — distinct copies created by the from-import on
program_manager.py line 10, which the `global` declarations make that module's
assignments target.  `zm` is the zone-manager state; zone_manager's own
`program_running` binding stays at its import-time value `False` throughout. -/
structure SysState where
  ps : ProgramState.PState
  disk : ProgramState.PState
  pmRunning : Bool
  pmId : Option String
  zm : ZoneManager.ZMState
deriving Repr, DecidableEq

/-- The `Disk` view of a state file whose content is a previously saved `PState`. -/
def diskOf (p : ProgramState.PState) : ProgramState.Disk :=
  ProgramState.Disk.ok (some p.running) p.id

/-- Embedding of `save_program_state` (program_state.py lines 15-58) on the system
state: it writes program_state's own globals to the file.  The `program_running =
True/False` assignments in program_manager update that module's copies and are
invisible here — a save therefore persists whatever `ps` holds, not the caller's
flags. -/
def save_program_state (s : SysState) : SysState := { s with disk := s.ps }

/-- A `load_program_state()` call as it affects the system: program_state's globals
are updated from the file through the embedded load (and the load's own
re-persist, when taken, rewrites the file); program_manager's and zone_manager's
`program_running` bindings are not touched. -/
def loadPS (s : SysState) : SysState :=
  let r := ProgramState.load_program_state s.ps (diskOf s.disk)
  { s with ps := r.state, disk := r.saved.getD s.disk }

/-- Embedding of `stop_program` (program_manager.py lines 634-711) on the system
state.  Lines 645-649 snapshot the original flags and reload; the incoherence
guard on lines 654-657 compares `program_running` — program_manager's own global,
which the reload does not update — with its own pre-reload value, so it can never
fire (kept verbatim).  When the flag is false the call returns `False` with no
effect beyond the reload; otherwise FASE 2 stops all zones (line 671), FASE 3
flips program_manager's globals (lines 679-680), FASE 4 saves (line 683) —
persisting program_state's globals — and the verification loop (lines 687-706)
performs one reload, after which the comparison of program_manager's globals with
their just-snapshotted values succeeds and the loop exits. -/
def stop_program (cfg : ZoneManager.Config) (s : SysState) : Bool × SysState :=
  let s1 := loadPS s
  let s2 :=
    if !s1.pmRunning && s.pmRunning then { s1 with pmRunning := true, pmId := s.pmId }
    else s1
  if !s2.pmRunning then (false, s2)
  else
    let s3 := { s2 with zm := (ZoneManager.stop_all_zones cfg s2.zm).2 }
    let s4 := { s3 with pmRunning := false, pmId := none }
    let s5 := save_program_state s4
    (true, loadPS s5)

/-- Result of a loop over the system state: final state, the intermediate states
after each primitive operation, the next await index, and the `program_running`
value (program_manager's global) at exit. -/
structure SysLoopRes where
  state : SysState
  snaps : List SysState
  k : Nat
  running : Bool
deriving Repr, DecidableEq

/-- A wait or delay loop of `execute_program` on the system state, `n` chunks
(`⌈remaining/10⌉`, as in `pollN`).  Each chunk: during the `await asyncio.sleep`,
a concurrently scheduled `stop_program` may run (`schedule k`); then
`load_program_state()` (lines 571 / 602) updates program_state's globals; then the
`if not program_running` test reads program_manager's global, exiting on false. -/
def sysChunks (cfg : ZoneManager.Config) (schedule : Nat → Bool) :
    Nat → Nat → SysState → SysLoopRes
  | k, 0, s => ⟨s, [], k, true⟩
  | k, n + 1, s =>
      let sA := if schedule k then (stop_program cfg s).2 else s
      let sB := loadPS sA
      if sB.pmRunning then
        let r := sysChunks cfg schedule (k + 1) n sB
        ⟨r.state, sA :: sB :: r.snaps, r.k, r.running⟩
      else ⟨sB, [sA, sB], k + 1, false⟩

/-- The step loop of `execute_program` (lines 529-606) on the system state.  Each
iteration: `load_program_state()` then the `if not program_running` test on
program_manager's global (lines 531-535, break on false); invalid steps are
skipped; `start_zone` (line 552) first runs its own `load_program_state()`
(zone_manager.py line 187) and then consults zone_manager's import-time
`program_running` binding, which is `False`; a failed start is skipped; a started
zone waits through its chunks (break on false); then `stop_zone` (line 582, result
only logged); then the optional between-steps delay, whose own false observation
only exits the delay loop. -/
def sysSteps (cfg : ZoneManager.Config) (schedule : Nat → Bool) (delay : Nat) :
    List PStep → Nat → Nat → SysState → SysLoopRes
  | [], _, k, s => ⟨s, [], k, true⟩
  | st :: rest, i, k, s =>
      let s0 := loadPS s
      if !s0.pmRunning then ⟨s0, [s0], k, false⟩
      else
        match st with
        | .malformed =>
            let r := sysSteps cfg schedule delay rest (i + 1) k s0
            ⟨r.state, s0 :: r.snaps, r.k, r.running⟩
        | .missingZone _ =>
            let r := sysSteps cfg schedule delay rest (i + 1) k s0
            ⟨r.state, s0 :: r.snaps, r.k, r.running⟩
        | .step z d =>
            let sL := loadPS s0
            let rz := ZoneManager.start_zone cfg false 0 sL.zm z d
            let s1 := { sL with zm := rz.2 }
            if !rz.1 then
              let r := sysSteps cfg schedule delay rest (i + 1) k s1
              ⟨r.state, s0 :: sL :: s1 :: r.snaps, r.k, r.running⟩
            else
              let w := sysChunks cfg schedule k (chunks ((d * 60).toNat)) s1
              if !w.running then ⟨w.state, s0 :: sL :: s1 :: w.snaps, w.k, false⟩
              else
                let s2 := { w.state with zm := (ZoneManager.stop_zone cfg w.state.zm z).2 }
                if delay ≠ 0 && !(rest.isEmpty) then
                  let dw := sysChunks cfg schedule w.k (chunks delay) s2
                  let r := sysSteps cfg schedule delay rest (i + 1) dw.k dw.state
                  ⟨r.state, s0 :: sL :: s1 :: w.snaps ++ s2 :: dw.snaps ++ r.snaps,
                   r.k, r.running⟩
                else
                  let r := sysSteps cfg schedule delay rest (i + 1) w.k s2
                  ⟨r.state, s0 :: sL :: s1 :: w.snaps ++ s2 :: r.snaps, r.k, r.running⟩

/-- Result of a system-state run of `execute_program`: final state, all
intermediate states, and whether `update_last_run_date` was reached. -/
structure SysRes where
  state : SysState
  snaps : List SysState
  updated : Bool
deriving Repr, DecidableEq

/-- Embedding of `execute_program` from FASE 1 on over the system state
(program_manager.py lines 480-632), entered after its entry guards passed.
FASE 1 (481-485) sets program_manager's globals to running and saves — which
persists program_state's unchanged globals, not the flags just set.  FASE 2
(490-504) reloads and tests program_manager's own (just-set) globals, so it
passes on the first try with a single load and no sleep.  FASE 3 is the step
loop; FASE 4 (611-614) reaches `update_last_run_date` when program_manager's
flag survived the loop.  The `finally` block (621-632) flips program_manager's
globals, saves — again persisting program_state's globals — and then calls
`stop_all_zones()`. -/
def execute_program_system (cfg : ZoneManager.Config) (schedule : Nat → Bool)
    (delay : Nat) (prog : Program) (s : SysState) : SysRes :=
  let s1 := save_program_state { s with pmRunning := true, pmId := some prog.id }
  let s2 := loadPS s1
  let r := sysSteps cfg schedule delay prog.steps 0 0 s2
  let s3 := save_program_state { r.state with pmRunning := false, pmId := none }
  let s4 := { s3 with zm := (ZoneManager.stop_all_zones cfg s3.zm).2 }
  ⟨s4, s1 :: s2 :: r.snaps ++ [s3, s4], r.running⟩

/-- Boot system state: program_state's globals at their initializers (`False`,
`None`, program_state.py lines 10-11), the state file as first written by
`save_program_state` (`{false, null}`), program_manager's from-import copies at
the same initial values, and no zone active, all outputs off, relay off. -/
def bootSys : SysState := ⟨⟨false, none⟩, ⟨false, none⟩, false, none, ⟨[], [], false⟩⟩

/-- The persisted-RunState condition tracked through every run: program_state's
global flag and the flag stored in the state file both read not-running. -/
def NeverRunning (s : SysState) : Prop :=
  s.ps.running = false ∧ s.disk.running = false

end ProgramManager

open ProgramState ZoneManager ProgramManager

/-- Configuration fixture: one configured zone 0, default settings, no relay, no
failing pins. -/
def cfgOne : Config := ⟨[0], 180, 1, false, []⟩

/-- Configuration fixture: zones 0 and 1 configured, relay present, zone 0's GPIO
write raises. -/
def cfgFail0 : Config := ⟨[0, 1], 180, 1, true, [0]⟩

/-- State fixture: zone 0 recorded active and energized, and zone 1's output also
energized though no bookkeeping records it. -/
def sZone0Active : ZMState := ⟨[(0, ⟨0, 5⟩)], [0, 1], true⟩

/-- C1.  `start_zone(0, 5)` issued while the persisted RunState holds
`program_running = true` (with id "1"): the `load_program_state()` on
zone_manager.py line 187 loads that running state, yet the test on line 188 reads
zone_manager's import-time binding of `program_running` (line 11), which is `False`
from boot and is never updated — so the call is not rejected: it returns `True` and
energizes zone 0's output. -/
theorem C1_start_zone_not_rejected_while_program_running :
    (start_zone_after_load ⟨false, none⟩ (Disk.ok (some true) (some "1")) false cfgOne 0
        ⟨[], [], false⟩ 0 5).1.running = true
    ∧ (start_zone_after_load ⟨false, none⟩ (Disk.ok (some true) (some "1")) false cfgOne 0
        ⟨[], [], false⟩ 0 5).2.1 = true
    ∧ ((start_zone_after_load ⟨false, none⟩ (Disk.ok (some true) (some "1")) false cfgOne 0
        ⟨[], [], false⟩ 0 5).2.2.pinOn.contains 0) = true := by
  decide

/-- C4 counterexample.  Disk file `{program_running: false, current_program_id:
"5"}` loaded into an idle memory state: the loaded state has a non-null id together
with `program_running = false`, and no correction is applied — the claimed
invariant `current_program_id ≠ null ↔ program_running` fails after this load. -/
theorem C4_counterexample :
    ¬(((load_program_state ⟨false, none⟩ (Disk.ok (some false) (some "5"))).state.id ≠ none)
        ↔ (load_program_state ⟨false, none⟩ (Disk.ok (some false) (some "5"))).state.running
            = true) := by
  decide

/-- C4 amended.  What `load_program_state` actually enforces about the id field:
(a) a non-null disk id is adopted unconditionally — in particular a file with
`running = false` and a non-null id leaves memory with that non-null id and
`running` unchanged, violating the claimed invariant; (b) the id is cleared to null
only when the disk id is null and the disk running field is not truthy; (c) a
truthy disk running field with a null disk id leaves the previous id untouched (the
running-without-id anomaly is only logged, never repaired). -/
theorem C4_amended_load_id_rules :
    (∀ (mem : PState) (s : String),
        (load_program_state mem (Disk.ok (some false) (some s))).state
          = ⟨mem.running, some s⟩)
    ∧ (∀ (mem : PState) (dR : Option Bool), truthy dR = false →
        (load_program_state mem (Disk.ok dR none)).state.id = none)
    ∧ (∀ (mem : PState),
        (load_program_state mem (Disk.ok (some true) none)).state = ⟨true, mem.id⟩) := by
  refine ⟨fun mem s => ?_, fun mem dR h => ?_, fun mem => ?_⟩
  · cases hm : mem.running <;> simp [load_program_state, hm]
  · cases dR with
    | none => simp [load_program_state, truthy]
    | some b =>
        cases b with
        | false => cases hm : mem.running <;> simp [load_program_state, truthy, hm]
        | true => simp [truthy] at h
  · simp [load_program_state, truthy]

/-- C4 amended witness at a concrete input: disk running field null, id null ⇒ the
loaded id is cleared to null. -/
theorem C4_amended_witness :
    truthy (none : Option Bool) = false
    ∧ (load_program_state ⟨false, some "9"⟩ (Disk.ok none none)).state.id = none :=
  ⟨by decide, (C4_amended_load_id_rules.2.1 ⟨false, some "9"⟩ none (by decide))⟩

/-- C9 counterexample.  Memory believes `running = true` with id "5"; the disk
reads `{program_running: false, current_program_id: null}`.  The load keeps the
running belief and re-persists, but the in-memory id is then cleared to null by the
id branch — the belief is not kept "with its program id" as claimed. -/
theorem C9_counterexample :
    (load_program_state ⟨true, some "5"⟩ (Disk.ok (some false) none)).state.id ≠ some "5" := by
  decide

/-- C9 amended.  When memory believes a program is running and the disk read says
not-running, the load keeps `running = true`, re-persists the pre-load in-memory
state (running flag and id) via `save_program_state`, and then the in-memory id
follows the disk id field: adopted when non-null, cleared to null when null. -/
theorem C9_amended_running_belief_wins (mem : PState) (dI : Option String)
    (h : mem.running = true) :
    (load_program_state mem (Disk.ok (some false) dI)).state.running = true
    ∧ (load_program_state mem (Disk.ok (some false) dI)).saved = some mem
    ∧ (load_program_state mem (Disk.ok (some false) dI)).state.id = dI := by
  cases dI <;> simp [load_program_state, truthy, h]

/-- C9 witness: memory `⟨true, "7"⟩` against disk `{false, "3"}` keeps running,
re-persists `⟨true, "7"⟩`, and adopts id "3". -/
theorem C9_amended_witness :
    (⟨true, some "7"⟩ : PState).running = true
    ∧ ((load_program_state ⟨true, some "7"⟩ (Disk.ok (some false) (some "3"))).state.running
          = true
        ∧ (load_program_state ⟨true, some "7"⟩ (Disk.ok (some false) (some "3"))).saved
          = some ⟨true, some "7"⟩
        ∧ (load_program_state ⟨true, some "7"⟩ (Disk.ok (some false) (some "3"))).state.id
          = some "3") :=
  ⟨rfl, C9_amended_running_belief_wins ⟨true, some "7"⟩ (some "3") rfl⟩

/-- C10.  When no zone is recorded active, `stop_all_zones` returns `True` at once
(zone_manager.py lines 393-395) and the whole state — zone outputs, relay,
bookkeeping — is exactly as before: the forced sweep and the relay write are never
reached. -/
theorem C10_stop_all_zones_noop_when_idle (cfg : Config) (s : ZMState)
    (h : s.activeZones = []) :
    stop_all_zones cfg s = (true, s) := by
  simp [stop_all_zones, h]

/-- C10 witness: an idle bookkeeping state with a stray energized pin and an
energized relay is returned untouched. -/
theorem C10_witness :
    (⟨[], [5], true⟩ : ZMState).activeZones = []
    ∧ stop_all_zones cfgFail0 ⟨[], [5], true⟩ = (true, ⟨[], [5], true⟩) :=
  ⟨rfl, C10_stop_all_zones_noop_when_idle cfgFail0 ⟨[], [5], true⟩ rfl⟩

/-- C7 counterexample.  A candidate whose `activation_time` is the empty string
(missing time) against a stored program that also has an empty `activation_time`
and an intersecting month set: the claimed iff says the two conflict (equal time
strings, shared month), but `check_program_conflicts` returns no-conflict — the
empty-time early return (program_manager.py line 175) fires before any comparison. -/
theorem C7_counterexample :
    check_program_conflicts ⟨["Giugno"], "", "giornaliero"⟩
        [("1", ⟨["Giugno"], "", "giorni_alterni"⟩)] none
      ≠ conflict_per_spec ⟨["Giugno"], "", "giornaliero"⟩
        [("1", ⟨["Giugno"], "", "giorni_alterni"⟩)] none := by
  decide

/-- C7 amended.  For an `exclude_id` that is `None` or a nonempty string (the
empty string is falsy in the skip test on line 184 and would exclude nothing),
`check_program_conflicts` reports a conflict iff the candidate's activation time is
a nonempty string and some program other than the excluded one has a months set
intersecting the candidate's and an exactly equal activation-time string;
recurrence is never consulted. -/
theorem C7_amended_conflict_iff (program : ConfProgram)
    (programs : List (String × ConfProgram)) (exclude_id : Option String)
    (h : exclude_id ≠ some "") :
    check_program_conflicts program programs exclude_id
      = (!(program.activation_time == "")
          && conflict_per_spec program programs exclude_id) := by
  have anyCongr : ∀ (l : List (String × ConfProgram)) (f g : String × ConfProgram → Bool),
      (∀ a, f a = g a) → l.any f = l.any g := by
    intro l f g hfg
    induction l with
    | nil => rfl
    | cons a t ih => simp [List.any_cons, hfg a, ih]
  unfold check_program_conflicts conflict_per_spec
  by_cases hm : program.months.isEmpty
  · have hnil : program.months = [] := List.isEmpty_iff.mp hm
    clear h
    simp [hm, hnil, monthsIntersect]
  · simp only [hm, if_false]
    by_cases ht : program.activation_time == ""
    · clear h
      simp [ht]
    · simp only [ht, if_false, Bool.not_false, Bool.true_and]
      refine anyCongr _ _ _ (fun pr => ?_)
      cases exclude_id with
      | none => simp
      | some e =>
          have he : ¬(e = "") := fun hc => h (by rw [hc])
          by_cases hpe : pr.1 = e
          · simp [hpe, he]
          · simp [hpe, he, Bool.and_assoc]

/-- C7 witness: a real conflict — shared month "Giugno", equal time "06:00",
different recurrences, exclude id "2" not matching — is reported, matching the
amended characterization. -/
theorem C7_amended_witness :
    (some "06:00" ≠ some "") = (some "06:00" ≠ some "")
    ∧ check_program_conflicts ⟨["Giugno"], "06:00", "giornaliero"⟩
        [("1", ⟨["Giugno", "Luglio"], "06:00", "personalizzata"⟩)] (some "2")
      = (!((⟨["Giugno"], "06:00", "giornaliero"⟩ : ConfProgram).activation_time == "")
          && conflict_per_spec ⟨["Giugno"], "06:00", "giornaliero"⟩
              [("1", ⟨["Giugno", "Luglio"], "06:00", "personalizzata"⟩)] (some "2")) :=
  ⟨rfl, C7_amended_conflict_iff ⟨["Giugno"], "06:00", "giornaliero"⟩
      [("1", ⟨["Giugno", "Luglio"], "06:00", "personalizzata"⟩)] (some "2") (by decide)⟩

/-- C6.  Characterization of `is_program_due_today`: (1) a program with no valid
`last_run_date` is always due; (2) `giornaliero` (daily) is due iff
`days_since_last_run ≥ 1`; (3) `giorni_alterni` (every other day) iff ≥ 2;
(4) `personalizzata` with `interval_days = N` iff ≥ max(N, 1); (5) an unknown
recurrence value is never due; (6) the cross-year example: last run 2021-12-30
(non-leap year), today 2022-01-02 gives `days_since_last_run = 3`, so a daily
program is due. -/
theorem C6_due_today_characterization :
    (∀ (today : Date) (rec : Option String) (n : Option Int),
        is_program_due_today today ⟨none, rec, n⟩ = true)
    ∧ (∀ (today last : Date),
        is_program_due_today today ⟨some last, some "giornaliero", none⟩
          = decide (1 ≤ days_since_last_run today last))
    ∧ (∀ (today last : Date),
        is_program_due_today today ⟨some last, some "giorni_alterni", none⟩
          = decide (2 ≤ days_since_last_run today last))
    ∧ (∀ (today last : Date) (n : Int),
        is_program_due_today today ⟨some last, some "personalizzata", some n⟩
          = decide (max n 1 ≤ days_since_last_run today last))
    ∧ (∀ (today last : Date) (r : String) (n : Option Int),
        r ≠ "giornaliero" → r ≠ "giorni_alterni" → r ≠ "personalizzata" →
        is_program_due_today today ⟨some last, some r, n⟩ = false)
    ∧ (days_since_last_run ⟨2022, 1, 2⟩ ⟨2021, 12, 30⟩ = 3
        ∧ is_program_due_today ⟨2022, 1, 2⟩
            ⟨some ⟨2021, 12, 30⟩, some "giornaliero", none⟩ = true) := by
  refine ⟨fun today rec n => rfl, fun today last => rfl, fun today last => rfl,
    fun today last n => ?_, fun today last r n h1 h2 h3 => ?_, by decide, by decide⟩
  · have hmax : (if n ≤ 0 then (1 : Int) else n) = max n 1 := by
      split <;> omega
    simp only [is_program_due_today, Option.getD_some, hmax]
  · simp only [is_program_due_today, Option.getD_some]

/-- C6 witness: the unknown recurrence "settimanale" is never due, via the
characterization applied at the cross-year date pair. -/
theorem C6_witness :
    (("settimanale" : String) ≠ "giornaliero"
      ∧ ("settimanale" : String) ≠ "giorni_alterni"
      ∧ ("settimanale" : String) ≠ "personalizzata")
    ∧ is_program_due_today ⟨2022, 1, 2⟩
        ⟨some ⟨2021, 12, 30⟩, some "settimanale", none⟩ = false :=
  ⟨⟨by decide, by decide, by decide⟩,
    C6_due_today_characterization.2.2.2.2.1 ⟨2022, 1, 2⟩ ⟨2021, 12, 30⟩ "settimanale" none
      (by decide) (by decide) (by decide)⟩

/-- Length of a dict update: unchanged when the key is present, one more when it is
appended. -/
theorem updateAssoc_length (l : List (Int × ZoneData)) (k : Int) (v : ZoneData) :
    (updateAssoc l k v).length = if zmem k l then l.length else l.length + 1 := by
  induction l with
  | nil => simp [updateAssoc, zmem]
  | cons e rest ih =>
      simp only [updateAssoc]
      by_cases he : e.1 == k
      · simp [zmem, List.any_cons, he]
      · have hz : zmem k (e :: rest) = zmem k rest := by
          simp [zmem, List.any_cons, he]
        rw [hz, if_neg he]
        simp only [List.length_cons, ih]
        by_cases hk : zmem k rest <;> simp [hk]

/-- Lookup after a dict update finds the new value. -/
theorem lookupAssoc_updateAssoc (l : List (Int × ZoneData)) (k : Int) (v : ZoneData) :
    lookupAssoc (updateAssoc l k v) k = some v := by
  induction l with
  | nil => simp [updateAssoc, lookupAssoc]
  | cons e rest ih =>
      by_cases he : e.1 == k
      · simp [updateAssoc, lookupAssoc, he]
      · simp [updateAssoc, lookupAssoc, he, ih]

/-- A `start_zone` call never pushes the active-zone count above
`max_active_zones` when it was not above before. -/
theorem start_zone_count_le (cfg : Config) (b : Bool) (now : Nat) (s : ZMState)
    (z d : Int) (h : s.activeZones.length ≤ cfg.maxActiveZones) :
    (start_zone cfg b now s z d).2.activeZones.length ≤ cfg.maxActiveZones := by
  simp only [start_zone]
  repeat' split
  all_goals simp_all [updateAssoc_length, zmem]
  · omega
  · by_cases hz : s.activeZones.any (fun e => e.1 == z) = true
    all_goals simp_all
    all_goals omega

/-- A `start_zone` call on an already-active, configured, non-failing zone with a
valid duration succeeds, keeps the active-zone count unchanged, and replaces the
zone's dict entry — and with it its auto-off timer — with the fresh start time and
duration. -/
theorem start_zone_restart (cfg : Config) (s : ZMState) (z d : Int) (now : Nat)
    (h1 : cfg.zonePins.contains z = true) (h2 : 0 < d) (h3 : d ≤ cfg.maxZoneDuration)
    (h4 : cfg.failPins.contains z = false) (h5 : zmem z s.activeZones = true) :
    (start_zone cfg false now s z d).1 = true
    ∧ (start_zone cfg false now s z d).2.activeZones.length = s.activeZones.length
    ∧ lookupAssoc (start_zone cfg false now s z d).2.activeZones z
        = some ⟨now, d⟩ := by
  have hd : (d ≤ 0 || d > cfg.maxZoneDuration) = false := by
    simp only [Bool.or_eq_false_iff, decide_eq_false_iff_not]
    constructor <;> omega
  have hcap : (cfg.maxActiveZones ≤ s.activeZones.length && !(zmem z s.activeZones))
      = false := by
    simp [h5]
  have h1m : z ∈ cfg.zonePins := by simpa using h1
  have h4m : z ∉ cfg.failPins := by simpa using h4
  by_cases hrel : (cfg.hasRelay && s.activeZones.isEmpty) = true
  · simp [start_zone, h1m, h4m, hd, hcap, updateAssoc_length, h5,
      lookupAssoc_updateAssoc, hrel]
  · simp [start_zone, h1m, h4m, hd, hcap, updateAssoc_length, h5,
      lookupAssoc_updateAssoc, hrel]

/-- Boot state of `zone_manager`: no active zones, all outputs off, relay off. -/
def initZMState : ZMState := ⟨[], [], false⟩

/-- A sequence of manual `start_zone` calls, each given as
`(zone_id, duration, now)`, threaded through the zone-manager state. -/
def run_start_calls (cfg : Config) : ZMState → List (Int × Int × Nat) → ZMState
  | s, [] => s
  | s, c :: rest => run_start_calls cfg (start_zone cfg false c.2.2 s c.1 c.2.1).2 rest

/-- The capacity bound is an invariant of any sequence of `start_zone` calls. -/
theorem run_start_calls_le (cfg : Config) (calls : List (Int × Int × Nat)) :
    ∀ s : ZMState, s.activeZones.length ≤ cfg.maxActiveZones →
      (run_start_calls cfg s calls).activeZones.length ≤ cfg.maxActiveZones := by
  induction calls with
  | nil => intro s h; exact h
  | cons c rest ih =>
      intro s h
      exact ih _ (start_zone_count_le cfg false c.2.2 s c.1 c.2.1 h)

/-- C8.  (1) After every sequence of `start_zone` calls from the boot state, the
active-zone count is at most `max_active_zones` — a start that would exceed the
limit is rejected by the guard on zone_manager.py line 206.  (2) Re-starting an
already-active zone (configured, non-failing pin, valid duration) succeeds even at
capacity, leaves the count unchanged, and resets the zone's timer record to the new
start time and duration. -/
theorem C8_capacity_invariant :
    (∀ (cfg : Config) (calls : List (Int × Int × Nat)),
        get_active_zones_count (run_start_calls cfg initZMState calls)
          ≤ cfg.maxActiveZones)
    ∧ (∀ (cfg : Config) (s : ZMState) (z d : Int) (now : Nat),
        cfg.zonePins.contains z = true → 0 < d → d ≤ cfg.maxZoneDuration →
        cfg.failPins.contains z = false → zmem z s.activeZones = true →
        (start_zone cfg false now s z d).1 = true
        ∧ get_active_zones_count (start_zone cfg false now s z d).2
            = get_active_zones_count s
        ∧ lookupAssoc (start_zone cfg false now s z d).2.activeZones z
            = some ⟨now, d⟩) :=
  ⟨fun cfg calls => run_start_calls_le cfg calls initZMState (Nat.zero_le _),
   fun cfg s z d now h1 h2 h3 h4 h5 => start_zone_restart cfg s z d now h1 h2 h3 h4 h5⟩

/-- C8 witness: with `max_active_zones = 1` and zone 0 active, re-starting zone 0
with duration 7 at time 99 succeeds, keeps the count at 1, and stores the new
timer record. -/
theorem C8_witness :
    (cfgOne.zonePins.contains 0 = true ∧ (0 : Int) < 7 ∧ (7 : Int) ≤ cfgOne.maxZoneDuration
      ∧ cfgOne.failPins.contains 0 = false
      ∧ zmem 0 [(0, ⟨0, 5⟩)] = true)
    ∧ ((start_zone cfgOne false 99 ⟨[(0, ⟨0, 5⟩)], [0], false⟩ 0 7).1 = true
        ∧ get_active_zones_count (start_zone cfgOne false 99 ⟨[(0, ⟨0, 5⟩)], [0], false⟩ 0 7).2
            = get_active_zones_count ⟨[(0, ⟨0, 5⟩)], [0], false⟩
        ∧ lookupAssoc (start_zone cfgOne false 99 ⟨[(0, ⟨0, 5⟩)], [0], false⟩ 0 7).2.activeZones 0
            = some ⟨99, 7⟩) :=
  ⟨⟨by decide, by decide, by decide, by decide, by decide⟩,
   C8_capacity_invariant.2 cfgOne ⟨[(0, ⟨0, 5⟩)], [0], false⟩ 0 7 99
     (by decide) (by decide) (by decide) (by decide) (by decide)⟩

/-- A de-energized pin stays out of the energized set. -/
theorem pinOff_not_mem_self (l : List Int) (z : Int) : z ∉ pinOff l z := by
  simp [pinOff, List.mem_filter]

/-- Writing some pin off never energizes another pin. -/
theorem pinOff_not_mem (l : List Int) (z w : Int) (h : w ∉ l) : w ∉ pinOff l z := by
  simp only [pinOff, List.mem_filter]
  intro hc
  exact absurd hc.1 h

/-- `stop_zone` never energizes a pin. -/
theorem stop_zone_pin_mono (cfg : Config) (s : ZMState) (z w : Int)
    (h : w ∉ s.pinOn) : w ∉ (stop_zone cfg s z).2.pinOn := by
  simp only [stop_zone]
  repeat' split
  all_goals dsimp only
  all_goals first
    | exact h
    | exact pinOff_not_mem s.pinOn z w h

/-- `stop_zone` on a configured, non-failing zone leaves that zone's output
de-energized. -/
theorem stop_zone_pin_self (cfg : Config) (s : ZMState) (z : Int)
    (h1 : cfg.zonePins.contains z = true) (h2 : cfg.failPins.contains z = false) :
    z ∉ (stop_zone cfg s z).2.pinOn := by
  simp only [stop_zone]
  repeat' split
  all_goals dsimp only
  all_goals first
    | exact pinOff_not_mem_self s.pinOn z
    | (exfalso; simp_all)

/-- Phase 1 of `stop_all_zones` never energizes a pin. -/
theorem stop_zones_list_pin_mono (cfg : Config) (ids : List Int) :
    ∀ (s : ZMState) (w : Int), w ∉ s.pinOn →
      w ∉ (stop_zones_list cfg s ids).2.pinOn := by
  induction ids with
  | nil => intro s w h; exact h
  | cons z rest ih =>
      intro s w h
      exact ih (stop_zone cfg s z).2 w (stop_zone_pin_mono cfg s z w h)

/-- Phase 1 of `stop_all_zones` de-energizes every configured, non-failing zone in
its id list. -/
theorem stop_zones_list_pin_self (cfg : Config) (ids : List Int) :
    ∀ (s : ZMState) (w : Int), w ∈ ids →
      cfg.zonePins.contains w = true → cfg.failPins.contains w = false →
      w ∉ (stop_zones_list cfg s ids).2.pinOn := by
  induction ids with
  | nil => intro s w hw; exact absurd hw (List.not_mem_nil w)
  | cons z rest ih =>
      intro s w hw h1 h2
      rcases List.mem_cons.mp hw with hz | hz
      · subst hz
        exact stop_zones_list_pin_mono cfg rest (stop_zone cfg s w).2 w
          (stop_zone_pin_self cfg s w h1 h2)
      · exact ih (stop_zone cfg s z).2 w hz h1 h2

/-- The forced sweep never energizes a pin. -/
theorem force_stop_list_pin_mono (cfg : Config) (ids : List Int) :
    ∀ (s : ZMState) (w : Int), w ∉ s.pinOn →
      w ∉ (force_stop_list cfg s ids).2.pinOn := by
  induction ids with
  | nil => intro s w h; exact h
  | cons z rest ih =>
      intro s w h
      simp only [force_stop_list]
      split
      · exact ih s w h
      · split
        · split
          · exact ih _ w (pinOff_not_mem s.pinOn z w h)
          · exact ih _ w (pinOff_not_mem s.pinOn z w h)
        · split
          · exact ih _ w h
          · exact ih _ w h

/-- C3 counterexample.  Configured zones 0 and 1, zone 0 recorded active with a
raising pin write, zone 1's output energized with no bookkeeping entry: after
`stop_all_zones`, zone 1's output is still energized — the forced sweep iterates
only the zone ids still recorded in `active_zones` (zone_manager.py line 410), not
every configured zone — and zone 0's output also stays energized because its write
raises in both phases.  The claim's sweep-covers-every-configured-zone part is
false at this input. -/
theorem C3_counterexample :
    ((stop_all_zones cfgFail0 sZone0Active).2.pinOn.contains 1) = true
    ∧ ((stop_all_zones cfgFail0 sZone0Active).2.pinOn.contains 0) = true := by
  decide

/-- C3 amended.  When at least one zone is recorded active at entry,
`stop_all_zones` always ends with: an empty active-zone set (count 0, guaranteed by
the final `active_zones.clear()`), a de-energized safety relay when one is
configured, and a de-energized output for every zone recorded active at entry whose
pin is configured and whose GPIO write does not raise — the forced sweep covers the
zones still recorded active after phase 1, not every configured zone. -/
theorem C3_amended_stop_all_guarantees (cfg : Config) (s : ZMState)
    (h : s.activeZones ≠ []) :
    (stop_all_zones cfg s).2.activeZones = []
    ∧ (cfg.hasRelay = true → (stop_all_zones cfg s).2.relayOn = false)
    ∧ (∀ z ∈ s.activeZones.map Prod.fst,
        cfg.zonePins.contains z = true → cfg.failPins.contains z = false →
        z ∉ (stop_all_zones cfg s).2.pinOn) := by
  have hne : s.activeZones.isEmpty = false := by
    simpa [List.isEmpty_iff] using h
  simp only [stop_all_zones, hne, Bool.false_eq_true, if_false]
  refine ⟨trivial, ?_, ?_⟩
  · intro hR
    simp [hR]
  · intro z hz hp hf
    have hbase : z ∉ (stop_zones_list cfg s (s.activeZones.map Prod.fst)).2.pinOn :=
      stop_zones_list_pin_self cfg (s.activeZones.map Prod.fst) s z hz hp hf
    by_cases hemp :
        (stop_zones_list cfg s (s.activeZones.map Prod.fst)).2.activeZones.isEmpty
    · simp [hemp]
      split <;> exact hbase
    · simp only [hemp, Bool.false_eq_true, if_false]
      have hforce := force_stop_list_pin_mono cfg
        ((stop_zones_list cfg s (s.activeZones.map Prod.fst)).2.activeZones.map Prod.fst)
        (stop_zones_list cfg s (s.activeZones.map Prod.fst)).2 z hbase
      split <;> exact hforce

/-- C3 witness: zone 1 (configured, non-failing) active with the relay energized —
after `stop_all_zones` the bookkeeping is empty, the relay is off, and zone 1's
output is off. -/
theorem C3_witness :
    ((⟨[(1, ⟨0, 3⟩)], [1], true⟩ : ZMState).activeZones ≠ [])
    ∧ ((stop_all_zones cfgFail0 ⟨[(1, ⟨0, 3⟩)], [1], true⟩).2.activeZones = []
        ∧ (cfgFail0.hasRelay = true →
            (stop_all_zones cfgFail0 ⟨[(1, ⟨0, 3⟩)], [1], true⟩).2.relayOn = false)
        ∧ (∀ z ∈ (⟨[(1, ⟨0, 3⟩)], [1], true⟩ : ZMState).activeZones.map Prod.fst,
            cfgFail0.zonePins.contains z = true → cfgFail0.failPins.contains z = false →
            z ∉ (stop_all_zones cfgFail0 ⟨[(1, ⟨0, 3⟩)], [1], true⟩).2.pinOn)) :=
  ⟨by decide, C3_amended_stop_all_guarantees cfgFail0 ⟨[(1, ⟨0, 3⟩)], [1], true⟩ (by decide)⟩

/-- When the step loop of `execute_program` ends with `program_running` still true,
no pre-step or wait-loop poll observed false, and the `for` loop ran to completion
without a break. -/
theorem execSteps_running_true (env : ExecEnv) :
    ∀ (steps : List PStep) (i k : Nat),
      (execSteps env steps i k).running = true →
      (execSteps env steps i k).swFalse = false
        ∧ (execSteps env steps i k).completed = true := by
  intro steps
  induction steps with
  | nil => intro i k _; simp [execSteps]
  | cons st rest ih =>
      intro i k h
      by_cases hk : env.obs k
      · simp only [execSteps, hk, Bool.not_true, Bool.false_eq_true, if_false] at h ⊢
        cases st with
        | malformed => exact ih (i + 1) (k + 1) h
        | missingZone d => exact ih (i + 1) (k + 1) h
        | step z d =>
            by_cases hs : env.startOk i
            · simp only [hs, Bool.not_true, Bool.false_eq_true, if_false] at h ⊢
              by_cases hw : (pollN env.obs (k + 1) (chunks ((d * 60).toNat))).2
              · simp only [hw, Bool.not_true, Bool.false_eq_true, if_false] at h ⊢
                by_cases hd : (env.activationDelay ≠ 0 && !rest.isEmpty) = true
                · simp only [hd, if_true] at h ⊢
                  exact ih _ _ h
                · simp only [hd, if_false] at h ⊢
                  exact ih _ _ h
              · simp only [Bool.not_eq_true] at hw
                simp only [hw, Bool.not_false, if_true] at h
                exact absurd h (by simp)
            · simp only [Bool.not_eq_true] at hs
              simp only [hs, Bool.not_false, if_true] at h ⊢
              exact ih (i + 1) (k + 1) h
      · simp only [Bool.not_eq_true] at hk
        simp only [execSteps, hk, Bool.not_false, if_true] at h
        exact absurd h (by simp)

/-- Uninterrupted schedule fixture: every poll observes running, every zone call
succeeds, no activation delay. -/
def envAll : ExecEnv := ⟨fun _ => true, fun _ => true, fun _ => true, 0⟩

/-- Program fixture: a single step watering zone 3 for 1 minute. -/
def progZone3 : Program := ⟨"p1", [PStep.step 3 1]⟩

/-- Configuration fixture: zone 3 configured, no relay, no failing pins. -/
def cfgZone3 : Config := ⟨[3], 180, 1, false, []⟩

/-- `save_program_state` writes program_state's globals, so it preserves the
persisted-not-running condition. -/
theorem save_never (s : SysState) (h : NeverRunning s) :
    NeverRunning (save_program_state s) :=
  ⟨h.1, h.1⟩

/-- `load_program_state` preserves the persisted-not-running condition: reading a
not-running file into a not-running memory keeps both not-running and triggers no
re-persist. -/
theorem loadPS_never (s : SysState) (h : NeverRunning s) : NeverRunning (loadPS s) := by
  obtain ⟨h1, h2⟩ := h
  simp [NeverRunning, loadPS, ProgramState.load_program_state, diskOf, h1, h2]

/-- `stop_program` preserves the persisted-not-running condition: its flag flips
touch only program_manager's globals, and its save re-persists program_state's
(not-running) globals. -/
theorem stop_program_never (cfg : Config) (s : SysState) (h : NeverRunning s) :
    NeverRunning (stop_program cfg s).2 := by
  have hl := loadPS_never s h
  have hpm : (loadPS s).pmRunning = s.pmRunning := rfl
  by_cases hr : s.pmRunning
  · simp only [stop_program, hpm, hr, Bool.not_true, Bool.false_and,
      Bool.false_eq_true, if_false]
    exact loadPS_never _ (save_never _ ⟨hl.1, hl.2⟩)
  · simp only [Bool.not_eq_true] at hr
    simp only [stop_program, hpm, hr, Bool.not_false, Bool.true_and,
      Bool.false_eq_true, if_false, if_true]
    exact hl

/-- Every state reached by a wait/delay loop — including all intermediate
states — keeps the persisted RunState not-running. -/
theorem sysChunks_never (cfg : Config) (schedule : Nat → Bool) :
    ∀ (n k : Nat) (s : SysState), NeverRunning s →
      NeverRunning (sysChunks cfg schedule k n s).state
      ∧ ∀ st ∈ (sysChunks cfg schedule k n s).snaps, NeverRunning st := by
  intro n
  induction n with
  | zero =>
      intro k s h
      exact ⟨h, by simp [sysChunks]⟩
  | succ n ih =>
      intro k s h
      have hA : NeverRunning (if schedule k then (stop_program cfg s).2 else s) := by
        split
        · exact stop_program_never cfg s h
        · exact h
      have hB := loadPS_never _ hA
      by_cases hr : (loadPS (if schedule k then (stop_program cfg s).2 else s)).pmRunning
      · simp only [sysChunks, hr, if_true]
        obtain ⟨hfin, hsn⟩ := ih (k + 1) _ hB
        refine ⟨hfin, ?_⟩
        refine List.forall_mem_cons.mpr ⟨hA, ?_⟩
        exact List.forall_mem_cons.mpr ⟨hB, hsn⟩
      · simp only [Bool.not_eq_true] at hr
        simp only [sysChunks, hr, Bool.false_eq_true, if_false]
        refine ⟨hB, ?_⟩
        refine List.forall_mem_cons.mpr ⟨hA, ?_⟩
        refine List.forall_mem_cons.mpr ⟨hB, ?_⟩
        simp

/-- Every state reached by the step loop — including all intermediate states —
keeps the persisted RunState not-running. -/
theorem sysSteps_never (cfg : Config) (schedule : Nat → Bool) (delay : Nat) :
    ∀ (steps : List PStep) (i k : Nat) (s : SysState), NeverRunning s →
      NeverRunning (sysSteps cfg schedule delay steps i k s).state
      ∧ ∀ st ∈ (sysSteps cfg schedule delay steps i k s).snaps, NeverRunning st := by
  intro steps
  induction steps with
  | nil =>
      intro i k s h
      exact ⟨h, by simp [sysSteps]⟩
  | cons st rest ih =>
      intro i k s h
      have h0 := loadPS_never s h
      by_cases hr : (loadPS s).pmRunning
      · simp only [sysSteps, hr, Bool.not_true, Bool.false_eq_true, if_false]
        cases st with
        | malformed =>
            obtain ⟨hfin, hsn⟩ := ih (i + 1) k _ h0
            exact ⟨hfin, List.forall_mem_cons.mpr ⟨h0, hsn⟩⟩
        | missingZone d =>
            obtain ⟨hfin, hsn⟩ := ih (i + 1) k _ h0
            exact ⟨hfin, List.forall_mem_cons.mpr ⟨h0, hsn⟩⟩
        | step z d =>
            have hL := loadPS_never _ h0
            by_cases hstart :
                (ZoneManager.start_zone cfg false 0 (loadPS (loadPS s)).zm z d).1
            · simp only [hstart, Bool.not_true, Bool.false_eq_true, if_false]
              have h1 : NeverRunning
                  { loadPS (loadPS s) with
                      zm := (ZoneManager.start_zone cfg false 0 (loadPS (loadPS s)).zm z d).2 } :=
                ⟨hL.1, hL.2⟩
              obtain ⟨hwfin, hwsn⟩ := sysChunks_never cfg schedule
                (chunks ((d * 60).toNat)) k _ h1
              by_cases hw : (sysChunks cfg schedule k (chunks ((d * 60).toNat))
                  { loadPS (loadPS s) with
                      zm := (ZoneManager.start_zone cfg false 0 (loadPS (loadPS s)).zm z d).2 }).running
              · simp only [hw, Bool.not_true, Bool.false_eq_true, if_false]
                have h2 : NeverRunning
                    { (sysChunks cfg schedule k (chunks ((d * 60).toNat))
                        { loadPS (loadPS s) with
                            zm := (ZoneManager.start_zone cfg false 0
                              (loadPS (loadPS s)).zm z d).2 }).state with
                        zm := (ZoneManager.stop_zone cfg
                          (sysChunks cfg schedule k (chunks ((d * 60).toNat))
                            { loadPS (loadPS s) with
                                zm := (ZoneManager.start_zone cfg false 0
                                  (loadPS (loadPS s)).zm z d).2 }).state.zm z).2 } :=
                  ⟨hwfin.1, hwfin.2⟩
                by_cases hd : (delay ≠ 0 && !rest.isEmpty) = true
                · simp only [hd, if_true]
                  obtain ⟨hdfin, hdsn⟩ := sysChunks_never cfg schedule (chunks delay) _ _ h2
                  obtain ⟨hfin, hsn⟩ := ih (i + 1) _ _ hdfin
                  refine ⟨hfin, ?_⟩
                  simp only [List.forall_mem_cons, List.forall_mem_append, and_assoc]
                  exact ⟨h0, hL, h1, hwsn, h2, hdsn, hsn⟩
                · simp only [hd, Bool.false_eq_true, if_false]
                  obtain ⟨hfin, hsn⟩ := ih (i + 1) _ _ h2
                  refine ⟨hfin, ?_⟩
                  simp only [List.forall_mem_cons, List.forall_mem_append, and_assoc]
                  exact ⟨h0, hL, h1, hwsn, h2, hsn⟩
              · simp only [Bool.not_eq_true] at hw
                simp only [hw, Bool.not_false, if_true]
                refine ⟨hwfin, ?_⟩
                refine List.forall_mem_cons.mpr ⟨h0, ?_⟩
                refine List.forall_mem_cons.mpr ⟨hL, ?_⟩
                exact List.forall_mem_cons.mpr ⟨h1, hwsn⟩
            · simp only [Bool.not_eq_true] at hstart
              simp only [hstart, Bool.not_false, if_true]
              have h1 : NeverRunning
                  { loadPS (loadPS s) with
                      zm := (ZoneManager.start_zone cfg false 0 (loadPS (loadPS s)).zm z d).2 } :=
                ⟨hL.1, hL.2⟩
              obtain ⟨hfin, hsn⟩ := ih (i + 1) k _ h1
              refine ⟨hfin, ?_⟩
              refine List.forall_mem_cons.mpr ⟨h0, ?_⟩
              refine List.forall_mem_cons.mpr ⟨hL, ?_⟩
              exact List.forall_mem_cons.mpr ⟨h1, hsn⟩
      · simp only [Bool.not_eq_true] at hr
        simp only [sysSteps, hr, Bool.not_false, if_true]
        refine ⟨h0, ?_⟩
        refine List.forall_mem_cons.mpr ⟨h0, ?_⟩
        simp

/-- Every state reached by an `execute_program` run from a persisted-not-running
state — including FASE 1's save, the whole step loop, and the `finally` block —
keeps the persisted RunState not-running: the saves persist program_state's
globals, which the run never sets to running. -/
theorem execute_program_system_never (cfg : Config) (schedule : Nat → Bool)
    (delay : Nat) (prog : Program) (s : SysState) (h : NeverRunning s) :
    NeverRunning (execute_program_system cfg schedule delay prog s).state
    ∧ ∀ st ∈ (execute_program_system cfg schedule delay prog s).snaps,
        NeverRunning st := by
  have h1 : NeverRunning
      (save_program_state { s with pmRunning := true, pmId := some prog.id }) :=
    save_never _ ⟨h.1, h.2⟩
  have h2 := loadPS_never _ h1
  obtain ⟨hfin, hsn⟩ := sysSteps_never cfg schedule delay prog.steps 0 0 _ h2
  have h3 : NeverRunning
      (save_program_state
        { (sysSteps cfg schedule delay prog.steps 0 0
            (loadPS (save_program_state
              { s with pmRunning := true, pmId := some prog.id }))).state with
            pmRunning := false, pmId := none }) :=
    save_never _ ⟨hfin.1, hfin.2⟩
  refine ⟨⟨h3.1, h3.2⟩, ?_⟩
  simp only [execute_program_system, List.forall_mem_cons, List.forall_mem_append,
    List.not_mem_nil, false_implies, implies_true, and_true, and_assoc]
  exact ⟨h1, h2, hsn, h3, ⟨h3.1, h3.2⟩⟩

/-- C2 counterexample.  From the boot state, an uninterrupted run of a one-step
program on zone 3 (configured, non-failing pin) reaches a state in which the
persisted RunState reads not-running while zone 3's output — energized by the
program's own `start_zone` call — is on: FASE 1's `save_program_state()` persists
program_state's globals, which the `program_running = True` assignment in
program_manager (its own module global, line 10's from-import copy) never touched,
so the file still reads not-running when the zone is energized.  The claimed
never-state therefore occurs in the source, with no interruption and no pin fault
involved. -/
theorem C2_counterexample :
    (execute_program_system cfgZone3 (fun _ => false) 0 progZone3 bootSys).snaps.any
      (fun st => !st.disk.running && st.zm.pinOn.contains 3) = true := by
  decide

/-- C2 amended.  Neither release path ever persists a running state to release:
`save_program_state` persists program_state's module globals, and the
`program_running` assignments in program_manager (FASE 1, the `finally` block,
stop_program's FASE 3) update only that module's own copies.  Consequently (1)
`stop_program` preserves the persisted-not-running condition, and (2) from the
boot state, every state reached during any `execute_program` run — under any
schedule of concurrent `stop_program` calls, any program and any activation
delay — has the persisted RunState reading not-running; so whenever a
program-started zone output is energized, the persisted RunState simultaneously
reads not-running, already while the program waters and not only at release.  (On
call order: `stop_program` stops all zones before flipping its flags and saving,
while `execute_program`'s `finally` saves before `stop_all_zones()`; neither order
changes the persisted value, which is already not-running.) -/
theorem C2_amended_persisted_never_running :
    (∀ (cfg : Config) (s : SysState), NeverRunning s →
        NeverRunning (stop_program cfg s).2)
    ∧ (∀ (cfg : Config) (schedule : Nat → Bool) (delay : Nat) (prog : Program),
        ∀ st ∈ (execute_program_system cfg schedule delay prog bootSys).snaps,
          st.disk.running = false) :=
  ⟨fun cfg s h => stop_program_never cfg s h,
   fun cfg schedule delay prog st hst =>
     ((execute_program_system_never cfg schedule delay prog bootSys ⟨rfl, rfl⟩).2
       st hst).2⟩

/-- C2 witness: the boot state is persisted-not-running, and a `stop_program` call
from it keeps both program_state's flag and the persisted file not-running. -/
theorem C2_witness :
    NeverRunning bootSys ∧ NeverRunning (stop_program cfgZone3 bootSys).2 :=
  ⟨⟨rfl, rfl⟩, C2_amended_persisted_never_running.1 cfgZone3 bootSys ⟨rfl, rfl⟩⟩

/-- C5.  `update_last_run_date` is reached only when `program_running` survived the
whole step loop: if any pre-step or wait-loop poll observed false (the claim's
notion of interruption), `last_run_date` is not advanced; and whenever it is
advanced, the loop ran every step to completion without a break. -/
theorem C5_last_run_date_only_on_completion (env : ExecEnv) (prog : Program) :
    ((execute_program env prog).loop.swFalse = true
        → (execute_program env prog).updated = false)
    ∧ ((execute_program env prog).updated = true
        → (execute_program env prog).loop.completed = true) := by
  have hlem := execSteps_running_true env prog.steps 0 0
  simp only [execute_program]
  constructor
  · intro hsw
    by_contra hupd
    rw [Bool.not_eq_false] at hupd
    have h2 := hlem hupd
    rw [h2.1] at hsw
    exact absurd hsw (by simp)
  · intro hupd
    exact (hlem hupd).2

/-- C5 witness: the uninterrupted single-step run updates the last-run date and
completed its loop, via the theorem's second component. -/
theorem C5_witness :
    (execute_program envAll progZone3).updated = true
    ∧ (execute_program envAll progZone3).loop.completed = true :=
  ⟨by decide, (C5_last_run_date_only_on_completion envAll progZone3).2 (by decide)⟩
